import Mathlib

/-!
Verification of the Momentum Scoring and Signal Engine (src/app.py).

Scores are integers, multipliers and thresholds are rationals (the source
works with Python/NumPy floats; the engine arithmetic is exact on the
rational inputs the claims quantify over).  A float NaN — produced by
pandas for rolling windows that are not yet full — is modelled as `none`
of an `Option` type; every comparison of the source against a possibly-NaN
value is embedded by a helper that returns `false` on `none`, matching
IEEE comparison semantics for NaN.
-/

namespace CyaTracker

/-- Round type labels assigned at app.py line 106. -/
inductive RType
  | Blue
  | Purple
  | Pink
deriving DecidableEq

/-- Zone labels emitted by the entry-decision block, app.py lines 352-359. -/
inductive Zone
  | Pink
  | Purple
  | Pullback
  | Neutral
deriving DecidableEq

/-- Trend labels of PatternDetector.detect, app.py line 26. -/
inductive Trend
  | Up
  | Down
deriving DecidableEq

/-- app.py line 91: score = 2 if mult >= PINK_THRESHOLD else (1 if mult >= 2.0 else -1). -/
def classifyScore (mult pink : ℚ) : ℤ :=
  if mult ≥ pink then 2 else if mult ≥ 2 then 1 else -1

/-- app.py line 106: "Pink" if x >= PINK_THRESHOLD else ("Purple" if x >= 2 else "Blue"). -/
def classifyType (mult pink : ℚ) : RType :=
  if mult ≥ pink then RType.Pink else if mult ≥ 2 then RType.Purple else RType.Blue

/-- Scores of a whole log of multipliers, as produced by repeated Add Round clicks. -/
def roundScores (mults : List ℚ) (pink : ℚ) : List ℤ :=
  mults.map (fun m => classifyScore m pink)

/-- app.py line 107: df["score"].rolling(WINDOW_SIZE).sum().  Entry i is NaN (none)
until the window is full, i.e. while i + 1 < w; afterwards it is the sum of the
w scores ending at index i. -/
def msiSeries (scores : List ℤ) (w : ℕ) : List (Option ℤ) :=
  (List.range scores.length).map (fun i =>
    if i + 1 < w then none
    else some (((scores.take (i + 1)).drop (i + 1 - w)).sum))

/-- app.py line 108: df["score"].cumsum(). -/
def momentumSeries (scores : List ℤ) : List ℤ :=
  (List.range scores.length).map (fun i => (scores.take (i + 1)).sum)

/-- Python round to the nearest integer, ties to even (the rounding mode of
builtin round). -/
def roundHalfEven (q : ℚ) : ℤ :=
  let f := ⌊q⌋
  let r := q - f
  if r < 1/2 then f
  else if 1/2 < r then f + 1
  else if f % 2 = 0 then f else f + 1

/-- Python round(q, 2): round to two decimal places, ties to even. -/
def pyRound2 (q : ℚ) : ℚ :=
  (roundHalfEven (q * 100) : ℚ) / 100

/-- app.py line 116: mom_delta = df["momentum"].iloc[-1] - df["momentum"].iloc[-6]. -/
def momDelta (scores : List ℤ) : ℤ :=
  (momentumSeries scores).getD (scores.length - 1) 0 -
    (momentumSeries scores).getD (scores.length - 6) 0

/-- app.py lines 111-125: the MDI scalar.  None models both the source's
explicit None (fewer than 6 rounds, or zero momentum delta) and the NaN that
propagates when an msi endpoint is still NaN. -/
def mdi (scores : List ℤ) (w : ℕ) : Option ℚ :=
  if scores.length < 6 then none
  else if momDelta scores = 0 then none
  else
    match (msiSeries scores w).getD (scores.length - 1) none,
          (msiSeries scores w).getD (scores.length - 6) none with
    | some a, some b => some (pyRound2 ((a - b : ℚ) / (momDelta scores : ℚ)))
    | _, _ => none

/-- Comparison c <= x against a possibly-NaN x (false on NaN). -/
def geNaN (m : Option ℚ) (c : ℚ) : Bool :=
  match m with
  | some x => decide (c ≤ x)
  | none => false

/-- Comparison x <= c against a possibly-NaN x (false on NaN). -/
def leNaN (m : Option ℚ) (c : ℚ) : Bool :=
  match m with
  | some x => decide (x ≤ c)
  | none => false

/-- Comparison x < c against a possibly-NaN x (false on NaN). -/
def ltNaN (m : Option ℚ) (c : ℚ) : Bool :=
  match m with
  | some x => decide (x < c)
  | none => false

/-- app.py lines 352-359: the entry-decision chain on latest_msi.  Chained
Python comparison 3 <= latest_msi < 6 is the conjunction of its two parts. -/
def entryDecision (m : Option ℚ) : Zone :=
  if geNaN m 6 then Zone.Pink
  else if geNaN m 3 && ltNaN m 6 then Zone.Purple
  else if leNaN m (-3) then Zone.Pullback
  else Zone.Neutral

/-- app.py line 343: df["msi"].iloc[-1], the last entry of the msi series. -/
def latestMsi (scores : List ℤ) (w : ℕ) : Option ℤ :=
  (msiSeries scores w).getD (scores.length - 1) none

/-- app.py lines 296-303: the 3-step forecast.  Only assigned when the log has
at least WINDOW_SIZE + 3 rounds; each entry is round(msi_last + avg*(i+1), 2)
where avg is the mean of the last WINDOW_SIZE scores (nanmean equals the plain
mean here because scores are integers). -/
def forecastMsi (scores : List ℤ) (w : ℕ) : Option (List ℚ) :=
  if scores.length < w + 3 then none
  else
    match latestMsi scores w with
    | none => none
    | some m =>
      let tail := scores.drop (scores.length - w)
      let avg : ℚ := (tail.sum : ℚ) / (tail.length : ℚ)
      some ((List.range 3).map (fun i : ℕ => pyRound2 ((m : ℚ) + avg * ((i : ℚ) + 1))))

/-- The values of the msi series that are actually numbers (pandas skipna). -/
def definedVals (msi : List (Option ℚ)) : List ℚ :=
  msi.filterMap id

/-- pandas Series.mean with skipna over the defined values. -/
def meanQ (l : List ℚ) : ℚ :=
  l.sum / (l.length : ℚ)

/-- pandas Series.std()^2 with the default ddof = 1: sample variance, NaN
(none) when fewer than two defined values exist. -/
def sampleVar (l : List ℚ) : Option ℚ :=
  if l.length ≤ 1 then none
  else some ((l.map (fun x => (x - meanQ l) ^ 2)).sum / ((l.length : ℚ) - 1))

/-- np.std(tail)^2 (population variance, ddof = 0, skipna via pandas dispatch);
none when no defined value exists.  The source reports round(sqrt(this), 2);
the square is kept so the definition stays inside the rationals, and no claim
inspects the numeric value of the volatility field. -/
def popVar (l : List ℚ) : Option ℚ :=
  if l.length = 0 then none
  else some ((l.map (fun x => (x - meanQ l) ^ 2)).sum / (l.length : ℚ))

/-- The comparison x > m + 2*sqrt v of app.py line 27, written without the
square root: for v >= 0 it is equivalent to m < x and 4v < (x-m)^2 (theorem
exceeds_iff_sqrt below), and false when v is NaN (none). -/
def exceeds (m : ℚ) (v : Option ℚ) (x : ℚ) : Bool :=
  match v with
  | none => false
  | some v => decide (m < x) && decide (4 * v < (x - m) ^ 2)

/-- Result record of PatternDetector.detect, app.py lines 24-28.  The source
stores round(sqrt(volatilitySq), 2) for volatility; see popVar. -/
structure DetectResult where
  volatilitySq : Option ℚ
  trend : Trend
  anomalies : ℕ
deriving DecidableEq

/-- Strict comparison of two possibly-NaN values, false if either is NaN. -/
def optGt (a b : Option ℚ) : Bool :=
  match a, b with
  | some x, some y => decide (y < x)
  | _, _ => false

/-- The anomaly test of app.py line 27 for one value: series.mean() and
series.std() are taken over the defined values of the whole series. -/
def anomalyCond (msi : List (Option ℚ)) (x : ℚ) : Bool :=
  exceeds (meanQ (definedVals msi)) (sampleVar (definedVals msi)) x

/-- app.py lines 13-28: PatternDetector.detect.  Empty dict (none) below 15
samples; otherwise volatility over the last 10 entries, trend comparing
iloc[-1] with iloc[-5], anomalies counting entries above mean + 2*std (NaN
entries never satisfy the comparison, and mean/std skip NaN). -/
def detect (msi : List (Option ℚ)) : Option DetectResult :=
  if msi.length < 15 then none
  else
    some
      { volatilitySq := popVar (definedVals (msi.drop (msi.length - 10)))
        trend :=
          if optGt (msi.getD (msi.length - 1) none) (msi.getD (msi.length - 5) none)
          then Trend.Up else Trend.Down
        anomalies :=
          msi.countP (fun o =>
            match o with
            | none => false
            | some x => anomalyCond msi x) }

/-- The anomaly count as the spec words it: the number of defined MSI values
strictly exceeding mean + 2*std, nulls excluded from the statistics and from
the count. -/
def specAnomalyCount (msi : List (Option ℚ)) : ℕ :=
  ((definedVals msi).filter (fun x => anomalyCond msi x)).length

/-- The zone label the engine emits for a log: app.py line 343 reads the last
msi entry (possibly NaN) and lines 352-359 classify it. -/
def latestZone (scores : List ℤ) (w : ℕ) : Zone :=
  entryDecision ((latestMsi scores w).map (fun z => (z : ℚ)))

/-- The trailing-window sum the spec describes: scores[i-w+1..i]. -/
def trailingSum (scores : List ℤ) (w i : ℕ) : ℤ :=
  ((scores.drop (i + 1 - w)).take w).sum

/-- A 15-sample msi series whose last value exceeds the value four positions
earlier (iloc[-5]) but not the value five positions earlier (index 9). -/
def exMix15 : List (Option ℚ) :=
  [some 0, some 0, some 0, some 0, some 0, some 0, some 0, some 0, some 0,
   some 10, some 0, some 0, some 0, some 0, some 5]

/-- A 15-sample msi series ending on its strict maximum. -/
def exUp15 : List (Option ℚ) :=
  [some 0, some 0, some 0, some 0, some 0, some 0, some 0, some 0, some 0,
   some 0, some 0, some 0, some 0, some 0, some 1]

-- ===== helper lemmas =====

theorem getD_map_range {α : Type} (f : ℕ → α) (d : α) (n i : ℕ) (hi : i < n) :
    (((List.range n).map f).getD i d) = f i := by
  have hlen : i < ((List.range n).map f).length := by simpa using hi
  rw [List.getD_eq_getElem _ _ hlen]
  simp

theorem msiSeries_getD (scores : List ℤ) (w i : ℕ) (hi : i < scores.length) :
    (msiSeries scores w).getD i none =
      if i + 1 < w then none
      else some (((scores.take (i + 1)).drop (i + 1 - w)).sum) := by
  unfold msiSeries
  exact getD_map_range _ none scores.length i hi

theorem momentumSeries_getD (scores : List ℤ) (i : ℕ) (hi : i < scores.length) :
    (momentumSeries scores).getD i 0 = (scores.take (i + 1)).sum := by
  unfold momentumSeries
  exact getD_map_range _ 0 scores.length i hi

/-- For a full window the code's take-then-drop slice is the spec's
drop-then-take trailing slice. -/
theorem window_slice_eq (scores : List ℤ) (w i : ℕ) (hwi : w ≤ i + 1) :
    ((scores.take (i + 1)).drop (i + 1 - w)).sum = trailingSum scores w i := by
  unfold trailingSum
  rw [List.drop_take]
  have h : i + 1 - (i + 1 - w) = w := by omega
  rw [h]

-- ===== C1 =====

/-- C1: for every score sequence and window size w >= 1, the msi series is
undefined at index i exactly when i + 1 < w, and otherwise equals the sum of
the trailing w scores; no value comes from a partial window. -/
theorem msi_defined_iff_full_window (scores : List ℤ) (w i : ℕ)
    (_hw : 1 ≤ w) (hi : i < scores.length) :
    ((msiSeries scores w).getD i none = none ↔ i + 1 < w) ∧
    (w ≤ i + 1 → (msiSeries scores w).getD i none = some (trailingSum scores w i)) := by
  constructor
  · rw [msiSeries_getD scores w i hi]
    constructor
    · intro h
      by_contra hlt
      rw [if_neg hlt] at h
      exact Option.noConfusion h
    · intro h
      rw [if_pos h]
  · intro hwi
    rw [msiSeries_getD scores w i hi, if_neg (by omega), window_slice_eq scores w i hwi]

/-- C1 witness: concrete evaluation on a 3-round log with window 2. -/
theorem msi_defined_iff_full_window_w :
    (((msiSeries [1, -1, 2] 2).getD 0 none = none ↔ 0 + 1 < 2) ∧
      (2 ≤ 0 + 1 → (msiSeries [1, -1, 2] 2).getD 0 none = some (trailingSum [1, -1, 2] 2 0))) ∧
    (((msiSeries [1, -1, 2] 2).getD 2 none = none ↔ 2 + 1 < 2) ∧
      (2 ≤ 2 + 1 → (msiSeries [1, -1, 2] 2).getD 2 none = some (trailingSum [1, -1, 2] 2 2))) :=
  ⟨msi_defined_iff_full_window [1, -1, 2] 2 0 (by decide) (by decide),
   msi_defined_iff_full_window [1, -1, 2] 2 2 (by decide) (by decide)⟩

-- ===== C2 =====

/-- C2: momentum is the running sum of the scores: same length as the score
sequence, defined from the first entry, and momentum[i] = momentum[i-1] +
score[i] with base 0 before the first entry. -/
theorem momentum_running_sum (scores : List ℤ) :
    (momentumSeries scores).length = scores.length ∧
    (∀ i, i < scores.length →
      (momentumSeries scores).getD i 0 =
        (if i = 0 then 0 else (momentumSeries scores).getD (i - 1) 0) + scores.getD i 0) := by
  constructor
  · unfold momentumSeries
    simp
  · intro i hi
    rw [momentumSeries_getD scores i hi]
    by_cases h0 : i = 0
    · subst h0
      simp [List.take_succ, List.getD_eq_getElem scores 0 hi]
      rw [List.getElem?_eq_getElem hi]
      simp
    · obtain ⟨j, rfl⟩ : ∃ j, i = j + 1 := ⟨i - 1, by omega⟩
      rw [if_neg h0]
      simp only [Nat.add_sub_cancel]
      rw [momentumSeries_getD scores j (by omega)]
      rw [List.sum_take_succ scores (j + 1) hi, List.getD_eq_getElem scores 0 hi]

/-- C2 witness: concrete evaluation on a 3-round log. -/
theorem momentum_running_sum_w :
    (momentumSeries [2, -1, 1]).length = 3 ∧
    ((momentumSeries [2, -1, 1]).getD 1 0 =
      (if 1 = 0 then 0 else (momentumSeries [2, -1, 1]).getD 0 0) +
        ([2, -1, 1] : List ℤ).getD 1 0) :=
  ⟨(momentum_running_sum [2, -1, 1]).1,
   (momentum_running_sum [2, -1, 1]).2 1 (by decide)⟩

-- ===== C3 =====

/-- C3 counterexample: with pinkThreshold = 1 and multiplier = 3/2 (a valid
multiplier below 2.0), the code classifies Pink with score 2, not Blue with
score -1 as the claim's third band demands: the Pink comparison runs first. -/
theorem classify_counterexample :
    (1/100 : ℚ) ≤ 3/2 ∧ (3/2 : ℚ) < 2 ∧
    classifyType (3/2) 1 = RType.Pink ∧ classifyScore (3/2) 1 = 2 ∧
    classifyType (3/2) 1 ≠ RType.Blue ∧ classifyScore (3/2) 1 ≠ -1 := by
  have ht : classifyType (3/2) 1 = RType.Pink := by norm_num [classifyType]
  have hs : classifyScore (3/2) 1 = 2 := by norm_num [classifyScore]
  refine ⟨by norm_num, by norm_num, ht, hs, ?_, ?_⟩
  · rw [ht]
    decide
  · rw [hs]
    decide

/-- C3 (amended): classification is total and deterministic; multiplier at or
above pinkThreshold gives (Pink, 2); multiplier in [2, pinkThreshold) gives
(Purple, 1); multiplier below both 2 and pinkThreshold gives (Blue, -1) — the
Pink band takes precedence, so Blue requires the multiplier to also lie below
pinkThreshold.  Type and score always come from the same band. -/
theorem classify_bands (m pink : ℚ) (_hm : 1/100 ≤ m) :
    (pink ≤ m → classifyType m pink = RType.Pink ∧ classifyScore m pink = 2) ∧
    (2 ≤ m ∧ m < pink → classifyType m pink = RType.Purple ∧ classifyScore m pink = 1) ∧
    (m < 2 ∧ m < pink → classifyType m pink = RType.Blue ∧ classifyScore m pink = -1) := by
  refine ⟨fun h => ?_, fun h => ?_, fun h => ?_⟩
  · simp [classifyType, classifyScore, h]
  · have hnp : ¬(m ≥ pink) := not_le.2 h.2
    simp [classifyType, classifyScore, hnp, h.1]
  · have hnp : ¬(m ≥ pink) := not_le.2 h.2
    have hn2 : ¬(m ≥ 2) := not_le.2 h.1
    simp [classifyType, classifyScore, hnp, hn2]

/-- C3 witness: one concrete classification per band. -/
theorem classify_bands_w :
    (classifyType 11 10 = RType.Pink ∧ classifyScore 11 10 = 2) ∧
    (classifyType 5 10 = RType.Purple ∧ classifyScore 5 10 = 1) ∧
    (classifyType (3/2) 10 = RType.Blue ∧ classifyScore (3/2) 10 = -1) :=
  ⟨(classify_bands 11 10 (by norm_num)).1 (by norm_num),
   (classify_bands 5 10 (by norm_num)).2.1 (by norm_num),
   (classify_bands (3/2) 10 (by norm_num)).2.2 (by norm_num)⟩

-- ===== C4 =====

/-- C4 counterexample: for the 6-round log with scores [1,-1,-1,1,2,2] and
window 1, the msi endpoints are 2 and 1 and the momentum endpoints 4 and 1, so
the closed-form ratio is 1/3; the code stores round(1/3, 2) = 33/100, which is
not equal to the ratio. -/
theorem mdi_counterexample :
    (msiSeries [1, -1, -1, 1, 2, 2] 1).getD 5 none = some 2 ∧
    (msiSeries [1, -1, -1, 1, 2, 2] 1).getD 0 none = some 1 ∧
    (momentumSeries [1, -1, -1, 1, 2, 2]).getD 5 0 = 4 ∧
    (momentumSeries [1, -1, -1, 1, 2, 2]).getD 0 0 = 1 ∧
    mdi [1, -1, -1, 1, 2, 2] 1 = some (33/100) ∧
    (33/100 : ℚ) ≠ (2 - 1 : ℚ) / (4 - 1 : ℚ) := by
  refine ⟨by decide, by decide, by decide, by decide, ?_, by norm_num⟩
  unfold mdi
  rw [if_neg (by decide), if_neg (by decide)]
  rw [show ([1, -1, -1, 1, 2, 2] : List ℤ).length - 1 = 5 from by decide]
  rw [show ([1, -1, -1, 1, 2, 2] : List ℤ).length - 6 = 0 from by decide]
  rw [show (msiSeries [1, -1, -1, 1, 2, 2] 1).getD 5 none = some 2 from by decide]
  rw [show (msiSeries [1, -1, -1, 1, 2, 2] 1).getD 0 none = some 1 from by decide]
  rw [show momDelta [1, -1, -1, 1, 2, 2] = 3 from by decide]
  norm_num [pyRound2, roundHalfEven]

/-- C4 (amended): the MDI scalar is undefined (never a divide-by-zero fault)
whenever the log has fewer than 6 rounds or momentum[last] equals
momentum[last-5]; it is also undefined (NaN) when an msi endpoint is still
undefined; in every other case it equals the closed-form ratio
(msi[last] - msi[last-5]) / (momentum[last] - momentum[last-5]) rounded to two
decimal places. -/
theorem mdi_characterization (scores : List ℤ) (w : ℕ) :
    ((scores.length < 6 ∨
        (momentumSeries scores).getD (scores.length - 1) 0 =
          (momentumSeries scores).getD (scores.length - 6) 0) →
      mdi scores w = none) ∧
    (∀ a b : ℤ, 6 ≤ scores.length →
      (momentumSeries scores).getD (scores.length - 1) 0 ≠
        (momentumSeries scores).getD (scores.length - 6) 0 →
      (msiSeries scores w).getD (scores.length - 1) none = some a →
      (msiSeries scores w).getD (scores.length - 6) none = some b →
      mdi scores w = some (pyRound2 ((a - b : ℚ) / (momDelta scores : ℚ)))) := by
  constructor
  · intro h
    unfold mdi
    rcases h with h | h
    · rw [if_pos h]
    · by_cases h6 : scores.length < 6
      · rw [if_pos h6]
      · rw [if_neg h6, if_pos (by unfold momDelta; omega)]
  · intro a b h6 hne ha hb
    unfold mdi
    rw [if_neg (by omega), if_neg (by unfold momDelta; omega), ha, hb]

/-- C4 witness: concrete application on the 6-round log above. -/
theorem mdi_characterization_w :
    mdi [1, -1, -1, 1, 2, 2] 1 =
      some (pyRound2 (((2 : ℤ) - (1 : ℤ) : ℚ) / (momDelta [1, -1, -1, 1, 2, 2] : ℚ))) :=
  (mdi_characterization [1, -1, -1, 1, 2, 2] 1).2 2 1 (by decide) (by decide)
    (by decide) (by decide)

-- ===== C5 =====

/-- C5 counterexample: with window 6 and the 9-round score log
[1,1,1,-1,-1,-1,1,1,2], msi[last] = 1 and the last-6 average is 1/6, so the
claim's formula gives 7/6 for the first step; the code stores
round(7/6, 2) = 117/100 instead. -/
theorem forecast_counterexample :
    (msiSeries [1, 1, 1, -1, -1, -1, 1, 1, 2] 6).getD 8 none = some 1 ∧
    (([1, 1, 1, -1, -1, -1, 1, 1, 2] : List ℤ).drop 3).sum = 1 ∧
    forecastMsi [1, 1, 1, -1, -1, -1, 1, 1, 2] 6 = some [117/100, 133/100, 3/2] ∧
    (117/100 : ℚ) ≠ (1 : ℚ) + (1/6 : ℚ) * (0 + 1) := by
  refine ⟨by decide, by decide, ?_, by norm_num⟩
  unfold forecastMsi
  rw [if_neg (by decide)]
  rw [show latestMsi [1, 1, 1, -1, -1, -1, 1, 1, 2] 6 = some 1 from by decide]
  simp only [show ([1, 1, 1, -1, -1, -1, 1, 1, 2] : List ℤ).length - 6 = 3 from by decide,
    show (([1, 1, 1, -1, -1, -1, 1, 1, 2] : List ℤ).drop 3).sum = 1 from by decide,
    show (([1, 1, 1, -1, -1, -1, 1, 1, 2] : List ℤ).drop 3).length = 6 from by decide,
    show List.range 3 = [0, 1, 2] from by decide, List.map_cons, List.map_nil]
  norm_num [pyRound2, roundHalfEven]

/-- C5 (amended): with at least windowSize + 3 rounds the forecast is defined
and forecast[k] = round(msi[last] + avgScore*(k+1), 2) for k in {0,1,2}, where
avgScore is the mean of the most recent windowSize scores (always a valid
number for integer scores).  The claim's concrete instance (windowSize 20,
msi[last] = 4, last-20 average 0.5) is unsatisfiable, since msi[last] is the
sum of the same 20 scores the average is taken over, forcing msi[last] = 10. -/
theorem forecast_formula (scores : List ℤ) (w : ℕ) (hw : 1 ≤ w)
    (h : w + 3 ≤ scores.length) :
    forecastMsi scores w =
      some ((List.range 3).map (fun i : ℕ =>
        pyRound2 ((trailingSum scores w (scores.length - 1) : ℚ) +
          ((scores.drop (scores.length - w)).sum : ℚ) / (w : ℚ) * ((i : ℚ) + 1)))) := by
  have h1 : scores.length - 1 < scores.length := by omega
  have hmsi : latestMsi scores w = some (trailingSum scores w (scores.length - 1)) := by
    unfold latestMsi
    rw [msiSeries_getD scores w _ h1, if_neg (by omega),
      window_slice_eq scores w _ (by omega)]
  unfold forecastMsi
  rw [if_neg (by omega), hmsi]
  have htail : (scores.drop (scores.length - w)).length = w := by
    rw [List.length_drop]
    omega
  simp only [htail]

/-- C5 witness: concrete evaluation with window 1 on a 4-round log. -/
theorem forecast_formula_w :
    forecastMsi [1, 1, 1, 1] 1 =
      some ((List.range 3).map (fun i : ℕ =>
        pyRound2 ((trailingSum [1, 1, 1, 1] 1 (([1, 1, 1, 1] : List ℤ).length - 1) : ℚ) +
          ((([1, 1, 1, 1] : List ℤ).drop (([1, 1, 1, 1] : List ℤ).length - 1)).sum : ℚ) /
            ((1 : ℕ) : ℚ) * ((i : ℚ) + 1)))) :=
  forecast_formula [1, 1, 1, 1] 1 (by decide) (by decide)

-- ===== C6 =====

/-- C6: the zone bands are closed at the lower edge — msi exactly 6 is the
Pink entry zone, exactly 3 the Purple zone, exactly -3 the Pullback zone, and
2.999 is Neutral — and every value falls into exactly one of the four zones,
characterized by Pink = [6, inf), Purple = [3, 6), Pullback = (-inf, -3],
Neutral = (-3, 3). -/
theorem zone_bands :
    entryDecision (some 6) = Zone.Pink ∧
    entryDecision (some 3) = Zone.Purple ∧
    entryDecision (some (-3)) = Zone.Pullback ∧
    entryDecision (some (2999/1000)) = Zone.Neutral ∧
    ∀ m : ℚ,
      (entryDecision (some m) = Zone.Pink ↔ 6 ≤ m) ∧
      (entryDecision (some m) = Zone.Purple ↔ 3 ≤ m ∧ m < 6) ∧
      (entryDecision (some m) = Zone.Pullback ↔ m ≤ -3) ∧
      (entryDecision (some m) = Zone.Neutral ↔ -3 < m ∧ m < 3) := by
  have key : ∀ m : ℚ,
      (entryDecision (some m) = Zone.Pink ↔ 6 ≤ m) ∧
      (entryDecision (some m) = Zone.Purple ↔ 3 ≤ m ∧ m < 6) ∧
      (entryDecision (some m) = Zone.Pullback ↔ m ≤ -3) ∧
      (entryDecision (some m) = Zone.Neutral ↔ -3 < m ∧ m < 3) := by
    intro m
    simp only [entryDecision, geNaN, leNaN, ltNaN, Bool.and_eq_true, decide_eq_true_eq]
    split_ifs with h1 h2 h3
    · exact ⟨iff_of_true rfl h1,
        iff_of_false (by decide) (fun hp => by linarith [hp.2]),
        iff_of_false (by decide) (fun hp => by linarith),
        iff_of_false (by decide) (fun hp => by linarith [hp.2])⟩
    · exact ⟨iff_of_false (by decide) h1,
        iff_of_true rfl h2,
        iff_of_false (by decide) (fun hp => by linarith [h2.1]),
        iff_of_false (by decide) (fun hp => by linarith [h2.1, hp.2])⟩
    · exact ⟨iff_of_false (by decide) (fun hp => by linarith),
        iff_of_false (by decide) (fun hp => by linarith [hp.1]),
        iff_of_true rfl h3,
        iff_of_false (by decide) (fun hp => by linarith [hp.1])⟩
    · have hgt3 : -3 < m := not_le.1 h3
      have hlt3 : m < 3 := by
        by_contra hc
        exact h2 ⟨not_lt.1 hc, not_le.1 h1⟩
      exact ⟨iff_of_false (by decide) h1,
        iff_of_false (by decide) h2,
        iff_of_false (by decide) h3,
        iff_of_true rfl ⟨hgt3, hlt3⟩⟩
  refine ⟨?_, ?_, ?_, ?_, key⟩
  · exact (key 6).1.2 (by norm_num)
  · exact (key 3).2.1.2 (by norm_num)
  · exact (key (-3)).2.2.1.2 (by norm_num)
  · exact (key (2999/1000)).2.2.2.2 (by norm_num)

-- ===== C7 =====

/-- C7 counterexample: with a single round and window 20 the latest MSI is
undefined, yet the engine still emits a zone label — the Neutral one — rather
than suppressing classification and reporting insufficient data. -/
theorem insufficient_data_counterexample :
    latestMsi [2] 20 = none ∧ latestZone [2] 20 = Zone.Neutral := by
  decide

/-- C7 (amended): whenever the latest MSI value is undefined (NaN), every
comparison in the decision chain is false and the engine emits the Neutral
zone label; it does not report insufficient data. -/
theorem undefined_msi_zone (scores : List ℤ) (w : ℕ)
    (h : latestMsi scores w = none) :
    latestZone scores w = Zone.Neutral := by
  unfold latestZone
  rw [h]
  rfl

/-- C7 witness: concrete application to a 1-round log with window 20. -/
theorem undefined_msi_zone_w : latestZone [2] 20 = Zone.Neutral :=
  undefined_msi_zone [2] 20 (by decide)

-- ===== further helper lemmas =====

/-- Justification of the square-free embedding of app.py line 27: for a
nonnegative variance v, the comparison x > mean + 2*sqrt v over the reals is
exactly the rational test used in exceeds. -/
theorem exceeds_sqrt_iff (x m v : ℚ) (_hv : 0 ≤ v) :
    exceeds m (some v) x = true ↔ (m : ℝ) + 2 * Real.sqrt ((v : ℝ)) < (x : ℝ) := by
  unfold exceeds
  simp only [Bool.and_eq_true, decide_eq_true_eq]
  constructor
  · rintro ⟨h1, h2⟩
    have h1R : (m : ℝ) < (x : ℝ) := by exact_mod_cast h1
    have h2R : (4 : ℝ) * (v : ℝ) < ((x : ℝ) - (m : ℝ)) ^ 2 := by exact_mod_cast h2
    have hhalf : (0 : ℝ) < ((x : ℝ) - m) / 2 := by linarith
    have hs : Real.sqrt v < ((x : ℝ) - m) / 2 := by
      rw [Real.sqrt_lt' hhalf]
      nlinarith
    linarith [hs]
  · intro h
    have hsq : (0 : ℝ) ≤ Real.sqrt v := Real.sqrt_nonneg _
    have h1R : (m : ℝ) < x := by linarith
    have hhalf : (0 : ℝ) < ((x : ℝ) - m) / 2 := by linarith
    have hs : Real.sqrt v < ((x : ℝ) - m) / 2 := by linarith
    have h2R : (v : ℝ) < (((x : ℝ) - m) / 2) ^ 2 := (Real.sqrt_lt' hhalf).1 hs
    refine ⟨by exact_mod_cast h1R, ?_⟩
    have h4 : (4 : ℝ) * v < ((x : ℝ) - m) ^ 2 := by nlinarith
    exact_mod_cast h4

/-- Counting the entries of an Option list that are present and satisfy p is
counting the defined values that satisfy p. -/
theorem countP_option (l : List (Option ℚ)) (p : ℚ → Bool) :
    l.countP (fun o => match o with | none => false | some x => p x) =
      ((l.filterMap id).filter p).length := by
  induction l with
  | nil => simp
  | cons a t ih =>
    cases a with
    | none =>
      rw [List.countP_cons]
      simp [ih]
    | some x =>
      rw [List.countP_cons]
      by_cases hx : p x
      · simp [hx, ih]
      · simp [hx, ih]

/-- A list of entries bounded above by 2 has sum at most twice its length. -/
theorem sum_le_two_mul_length (l : List ℤ) (h : ∀ x ∈ l, x ≤ 2) :
    l.sum ≤ 2 * (l.length : ℤ) := by
  induction l with
  | nil => simp
  | cons a t ih =>
    simp only [List.sum_cons, List.length_cons]
    have ha := h a (by simp)
    have ht := ih (fun x hx => h x (by simp [hx]))
    push_cast
    linarith

/-- A list of entries bounded below by -1 has sum at least minus its length. -/
theorem neg_length_le_sum (l : List ℤ) (h : ∀ x ∈ l, -1 ≤ x) :
    -(l.length : ℤ) ≤ l.sum := by
  induction l with
  | nil => simp
  | cons a t ih =>
    simp only [List.sum_cons, List.length_cons]
    have ha := h a (by simp)
    have ht := ih (fun x hx => h x (by simp [hx]))
    push_cast
    linarith

-- ===== C8 =====

/-- C8 counterexample: on exMix15 the last value is 5, the value five indices
before the last (index 9) is 10, so the claim's rule demands Down; the code
compares iloc[-5] (index 10, value 0) and reports Up. -/
theorem trend_counterexample :
    (detect exMix15).map DetectResult.trend = some Trend.Up ∧
    exMix15.getD (exMix15.length - 1) none = some 5 ∧
    exMix15.getD (exMix15.length - 1 - 5) none = some 10 ∧
    ¬((10 : ℚ) < 5) := by
  refine ⟨?_, by decide, by decide, by decide⟩
  unfold detect
  rw [if_neg (by decide)]
  simp only [Option.map_some']
  rw [show exMix15.getD (exMix15.length - 1) none = some 5 from by decide]
  rw [show exMix15.getD (exMix15.length - 5) none = some 0 from by decide]
  decide

/-- C8 (amended): for every msi series of length at least 15, the trend is Up
exactly when the most recent value and the value four positions earlier (the
fifth element counting from the end, iloc[-5]) are both defined and the
former strictly exceeds the latter; it is Down otherwise. -/
theorem trend_rule (msi : List (Option ℚ)) (h : 15 ≤ msi.length) :
    ((detect msi).map DetectResult.trend = some Trend.Up ↔
      ∃ a b : ℚ, msi.getD (msi.length - 1) none = some a ∧
        msi.getD (msi.length - 5) none = some b ∧ b < a) := by
  unfold detect
  rw [if_neg (by omega)]
  simp only [Option.map_some']
  cases hx : msi.getD (msi.length - 1) none with
  | none => simp [optGt, hx]
  | some x =>
    cases hy : msi.getD (msi.length - 5) none with
    | none => simp [optGt, hx, hy]
    | some y =>
      by_cases hlt : y < x
      · simp [optGt, hx, hy, hlt]
      · simp [optGt, hx, hy, hlt]

/-- C8 witness: concrete application on exUp15. -/
theorem trend_rule_w :
    (detect exUp15).map DetectResult.trend = some Trend.Up ↔
      ∃ a b : ℚ, exUp15.getD (exUp15.length - 1) none = some a ∧
        exUp15.getD (exUp15.length - 5) none = some b ∧ b < a :=
  trend_rule exUp15 (by decide)

-- ===== C9 =====

/-- C9: the pattern detector returns the empty result for any series with
fewer than 15 samples, and for length at least 15 its anomaly count equals the
count of defined MSI values strictly exceeding mean + 2*std over the full
series, null entries excluded from the statistics and never counted. -/
theorem detect_cases (msi : List (Option ℚ)) :
    (msi.length < 15 → detect msi = none) ∧
    (15 ≤ msi.length →
      (detect msi).map DetectResult.anomalies = some (specAnomalyCount msi)) := by
  constructor
  · intro h
    unfold detect
    rw [if_pos h]
  · intro h
    unfold detect
    rw [if_neg (by omega)]
    simp only [Option.map_some', Option.some.injEq]
    unfold specAnomalyCount definedVals
    exact countP_option msi (anomalyCond msi)

/-- C9 witness: the empty result on a 1-sample series and the anomaly count on
a 15-sample series. -/
theorem detect_cases_w :
    (detect [some 1] = none) ∧
    ((detect exUp15).map DetectResult.anomalies = some (specAnomalyCount exUp15)) :=
  ⟨(detect_cases [some 1]).1 (by decide), (detect_cases exUp15).2 (by decide)⟩

-- ===== C10 =====

/-- C10: every score the classifier assigns is -1, 1 or 2; consequently every
defined MSI value lies in [-w, 2w], and consecutive momentum values differ by
exactly -1, 1 or 2. -/
theorem scores_invariant (mults : List ℚ) (pink : ℚ) (w i : ℕ) (_hw : 1 ≤ w) :
    (∀ s ∈ roundScores mults pink, s = -1 ∨ s = 1 ∨ s = 2) ∧
    (∀ v : ℤ, (msiSeries (roundScores mults pink) w).getD i none = some v →
      -((w : ℕ) : ℤ) ≤ v ∧ v ≤ 2 * ((w : ℕ) : ℤ)) ∧
    (i + 1 < mults.length →
      (momentumSeries (roundScores mults pink)).getD (i + 1) 0 -
          (momentumSeries (roundScores mults pink)).getD i 0 = -1 ∨
        (momentumSeries (roundScores mults pink)).getD (i + 1) 0 -
          (momentumSeries (roundScores mults pink)).getD i 0 = 1 ∨
        (momentumSeries (roundScores mults pink)).getD (i + 1) 0 -
          (momentumSeries (roundScores mults pink)).getD i 0 = 2) := by
  have hmem : ∀ s ∈ roundScores mults pink, s = -1 ∨ s = 1 ∨ s = 2 := by
    intro s hs
    unfold roundScores at hs
    obtain ⟨m, _, rfl⟩ := List.mem_map.1 hs
    unfold classifyScore
    split_ifs
    · right; right; rfl
    · right; left; rfl
    · left; rfl
  have hsl : (roundScores mults pink).length = mults.length := by
    unfold roundScores
    simp
  refine ⟨hmem, ?_, ?_⟩
  · intro v hv
    have hmsilen : (msiSeries (roundScores mults pink) w).length =
        (roundScores mults pink).length := by
      unfold msiSeries
      simp
    by_cases hi : i < (roundScores mults pink).length
    · rw [msiSeries_getD _ w i hi] at hv
      by_cases hw2 : i + 1 < w
      · rw [if_pos hw2] at hv
        exact absurd hv (by simp)
      · rw [if_neg hw2] at hv
        injection hv with hv'
        subst hv'
        have hlenl : (((roundScores mults pink).take (i + 1)).drop (i + 1 - w)).length = w := by
          rw [List.length_drop, List.length_take]
          omega
        have hmeml : ∀ x ∈ ((roundScores mults pink).take (i + 1)).drop (i + 1 - w),
            x = -1 ∨ x = 1 ∨ x = 2 := fun x hx =>
          hmem x (List.mem_of_mem_take (List.mem_of_mem_drop hx))
        constructor
        · have hb := neg_length_le_sum (((roundScores mults pink).take (i + 1)).drop (i + 1 - w))
            (fun x hx => by rcases hmeml x hx with h | h | h <;> omega)
          rw [hlenl] at hb
          exact hb
        · have hb := sum_le_two_mul_length (((roundScores mults pink).take (i + 1)).drop (i + 1 - w))
            (fun x hx => by rcases hmeml x hx with h | h | h <;> omega)
          rw [hlenl] at hb
          exact hb
    · rw [List.getD_eq_default _ _ (by omega)] at hv
      exact absurd hv (by simp)
  · intro hlt
    have h1 : i + 1 < (roundScores mults pink).length := by omega
    rw [momentumSeries_getD _ (i + 1) h1, momentumSeries_getD _ i (by omega)]
    rw [List.sum_take_succ (roundScores mults pink) (i + 1) h1]
    simp only [add_sub_cancel_left]
    exact hmem _ (List.getElem_mem h1)

/-- C10 witness: concrete log [3, 1, 12] with pink threshold 10, window 2,
index 1. -/
theorem scores_invariant_w :
    (∀ s ∈ roundScores [3, 1, 12] 10, s = -1 ∨ s = 1 ∨ s = 2) ∧
    (∀ v : ℤ, (msiSeries (roundScores [3, 1, 12] 10) 2).getD 1 none = some v →
      -((2 : ℕ) : ℤ) ≤ v ∧ v ≤ 2 * ((2 : ℕ) : ℤ)) ∧
    (1 + 1 < ([3, 1, 12] : List ℚ).length →
      (momentumSeries (roundScores [3, 1, 12] 10)).getD (1 + 1) 0 -
          (momentumSeries (roundScores [3, 1, 12] 10)).getD 1 0 = -1 ∨
        (momentumSeries (roundScores [3, 1, 12] 10)).getD (1 + 1) 0 -
          (momentumSeries (roundScores [3, 1, 12] 10)).getD 1 0 = 1 ∨
        (momentumSeries (roundScores [3, 1, 12] 10)).getD (1 + 1) 0 -
          (momentumSeries (roundScores [3, 1, 12] 10)).getD 1 0 = 2) :=
  scores_invariant [3, 1, 12] 10 2 1 (by decide)

end CyaTracker
